import Mathlib

/-!
Verification of the couler core (`couler/core/run_templates.py` and
`couler/steps/sqlflow.py`) against its natural-language specification.

The step-defining calls `run_script`, `run_container` and `run_job` are
embedded as pure state-passing functions over an explicit `WorkflowState`.
Python exceptions become an `Except` result paired with the state reached
at the point of the raise.  Collaborator modules that are not part of the
two source files (`couler.core.states`, `couler.core.pyfunc`,
`couler.core.step_update_utils`, and the template classes) are modelled
from the specification; every such definition carries a doc comment
starting with `Modelled from the spec:`.
-/

namespace Couler

/-- The kind tag of an output proxy.  In the Python source `Output` is the
base class of all proxies; `OutputArtifact` and `OutputJob` are the
artifact-kind and external-resource-kind subclasses, and parameter-valued
outputs use the base kind. -/
inductive OutputKind
  | parameter
  | artifact
  | job
deriving DecidableEq, Repr

/-- Modelled from the spec: an Output Proxy — a deferred-resolution handle
with a producing step name, a producing template name and a logical field
selector (spec §3).  `step` is an `Option` because `run_job` constructs
proxies from the raw caller-supplied `step_name`, which may be absent. -/
structure Output where
  kind : OutputKind
  step : Option String
  tmpl : String
  field : String
deriving DecidableEq, Repr

/-- An argument value passed to a step-defining call: a plain scalar, an
output proxy, or a (possibly nested) Python list of arguments. -/
inductive Arg
  | val (s : String)
  | proxy (o : Output)
  | list (xs : List Arg)

/-- An environment value for `run_job`: a plain string, or a staged list of
output proxies (the `inferred_outputs` entry). -/
inductive EnvVal
  | str (s : String)
  | outputs (l : List Output)
deriving DecidableEq, Repr

/-- Modelled from the spec: a structured view of the YAML job manifest.
`yaml.safe_load` / `pyaml.dump` round-tripping is the identity on this
view.  `spec_env` is the `spec.env` section and `metadata_labels` the
`metadata.labels` section (the only parts the code touches); `rest`
carries every other manifest field opaquely. -/
structure Manifest where
  spec_env : List (String × EnvVal)
  metadata_labels : Option (List (String × String))
  rest : String
deriving DecidableEq, Repr

/-- The `Script` template payload (fields of the `Script` class as
constructed in `run_script`).  `source` is the script body, guaranteed
non-null by the validation in `run_script`. -/
structure Script where
  name : String
  image : String
  command : Option String := none
  source : String
  env : Option (List (String × String)) := none
  secret : Option String := none
  resources : Option String := none
  timeout : Option Nat := none
  retry : Option Nat := none
  image_pull_policy : Option String := none
  pool : Option String := none
  daemon : Bool := false

/-- The `Container` template payload (fields of the `Container` class as
constructed in `run_container`). -/
structure Container where
  name : String
  image : String
  command : Option String := none
  args : Option (List Arg) := none
  env : Option (List (String × String)) := none
  secret : Option String := none
  resources : Option String := none
  image_pull_policy : Option String := none
  retry : Option Nat := none
  timeout : Option Nat := none
  output : Option (List Output) := none
  input : List Output := []
  pool : Option String := none
  enable_ulogfs : Bool := true
  daemon : Bool := false
  volume_mounts : Option (List String) := none

/-- The `Job` template payload (fields of the `Job` class as constructed in
`run_job`). -/
structure Job where
  name : String
  args : List Arg := []
  action : String := "create"
  manifest : Manifest
  set_owner_reference : Bool := true
  success_condition : String
  failure_condition : String
  timeout : Option Nat := none
  retry : Option Nat := none
  pool : Option String := none

/-- A registered template: the tagged union of the three variants used by
the source file. -/
inductive Template
  | script (s : Script)
  | container (c : Container)
  | job (j : Job)

/-- The unique registry key of a template. -/
def Template.name : Template → String
  | .script s => s.name
  | .container c => c.name
  | .job j => j.name

/-- The declared outputs of a template, as read by
`states.workflow.get_template(...).to_dict().get("outputs", None)` in
`run_container`.  Only container templates declare outputs there. -/
def Template.outputs : Template → Option (List Output)
  | .container c => c.output
  | _ => none

/-- A resolved step name: the template name together with the monotonic
per-template invocation counter (spec §4.3 step 1). -/
structure StepName where
  base : String
  idx : Nat
deriving DecidableEq, Repr

/-- Render a resolved step name: the first invocation uses the template
name itself, the k-th (k ≥ 2) appends a `-k` suffix (spec §8, e.g.
`s1-2`). -/
def StepName.render (s : StepName) : String :=
  if s.idx = 0 then s.base else s.base ++ "-" ++ toString (s.idx + 1)

/-- Modelled from the spec: a Step record (spec §3) — one concrete
invocation instance of a template, with the arguments it received, the
dependency references inferred from proxies among the arguments, and the
artifact/resource proxies registered as required inputs. -/
structure Step where
  step_name : StepName
  template_name : String
  args : Option Arg
  dependencies : List String
  inputs : List Output

/-- Modelled from the spec: the process-wide Workflow State (spec §3) —
the ordered template registry, the ordered step list, the
`states._outputs_tmp` staging area, the `states._steps_outputs` map and
the secret table.  Python dicts are modelled as update functions. -/
structure WorkflowState where
  templates : List Template
  steps : List Step
  outputs_tmp : Option (List Output)
  steps_outputs : Option String → Option (List Output)
  counters : String → Nat
  secrets : String → Option String

/-- Modelled from the spec: `states.workflow.get_template(name)` — look the
name up in the ordered registry. -/
def getTemplate (st : WorkflowState) (n : String) : Option Template :=
  st.templates.find? (fun t => t.name == n)

/-- Modelled from the spec: `states.workflow.add_template(template)` —
append to the ordered registry (all callers in the source guard the call
with `get_template`, so the duplicate check of spec §4.1 never fires). -/
def add_template (st : WorkflowState) (t : Template) : WorkflowState :=
  { st with templates := st.templates ++ [t] }

/-- Modelled from the spec: `states.get_secret(secret)` — forward the
secret handle from the secret-reference table. -/
def get_secret (st : WorkflowState) : Option String → Option String
  | none => none
  | some s => st.secrets s

/-- Modelled from the spec: `pyfunc.argo_safe_name` — sanitize an explicit
name to the target identifier charset by a deterministic character
replacement. -/
def argo_safe_name (s : String) : String :=
  String.mk (s.data.map (fun c => if c = '_' ∨ c = '.' then '-' else c))

/-- Modelled from the spec: `pyfunc.invocation_location()` — the static
call site: the derived defining-name and the source line, stable across
repeated calls from the same textual location (spec §6). -/
structure CallSite where
  func_name : String
  caller_line : Nat
deriving DecidableEq, Repr

/-- The name-resolution step shared by all three step-defining calls: an
explicit `step_name` is sanitized and used verbatim, otherwise the
call-site-derived name is used. -/
def resolved_name (step_name : Option String) (site : CallSite) : String :=
  match step_name with
  | some s => argo_safe_name s
  | none => site.func_name

/-- Modelled from the spec: `pyfunc.script_output(step_name, func_name)` —
the parameter-kind proxy for a script step's result. -/
def script_output (step_name : String) (func_name : String) : List Output :=
  [{ kind := .parameter, step := some step_name, tmpl := func_name,
     field := "outputs.result" }]

/-- Modelled from the spec: `pyfunc.container_output(step_name, func_name,
output)` — artifact proxies for the template's declared outputs, or a
single parameter-kind proxy when none are declared. -/
def container_output (step_name : Option String) (func_name : String)
    (output : Option (List Output)) : List Output :=
  match output with
  | some (o :: os) =>
    (o :: os).map (fun a => { a with step := step_name, tmpl := func_name })
  | _ =>
    [{ kind := .parameter, step := step_name, tmpl := func_name,
       field := "outputs.result" }]

/-- Modelled from the spec: `pyfunc.job_output(step_name, func_name)` —
the external-resource-kind proxies (job name and job id) for a job step. -/
def job_output (step_name : Option String) (func_name : String) : List Output :=
  [{ kind := .job, step := step_name, tmpl := func_name, field := "job-name" },
   { kind := .job, step := step_name, tmpl := func_name, field := "job-id" }]

/-- An environment value rendered as a step argument. -/
def envValToArg : EnvVal → Arg
  | .str s => .val s
  | .outputs l => .list (l.map Arg.proxy)

/-- Modelled from the spec: `pyfunc.generate_parameters_run_job(env)` —
for each environment entry generate a templated environment entry, an
input parameter, and the step argument carrying the entry's value. -/
def generate_parameters_run_job (env : Option (List (String × EnvVal))) :
    List (String × EnvVal) × List Arg × List Arg :=
  match env with
  | none => ([], [], [])
  | some e =>
    (e.map (fun kv =>
        (kv.1, EnvVal.str ("\x7b\x7binputs.parameters.para-" ++ kv.1 ++ "\x7d\x7d"))),
     e.map (fun kv => Arg.val ("para-" ++ kv.1)),
     e.map (fun kv => envValToArg kv.2))

/-- Python dict assignment `d[k] = v` on an association list: overwrite the
entry if the key is present, otherwise append it. -/
def updateAssoc (l : List (String × EnvVal)) (k : String) (v : EnvVal) :
    List (String × EnvVal) :=
  if l.any (fun kv => kv.1 == k) then
    l.map (fun kv => if kv.1 = k then (k, v) else kv)
  else l ++ [(k, v)]

/-- The `env["inferred_outputs"] = states._outputs_tmp` update of
`run_job` (source lines 229–230): performed only when both the staging
area and the environment mapping are present. -/
def infer_env (tmp : Option (List Output))
    (env : Option (List (String × EnvVal))) : Option (List (String × EnvVal)) :=
  match tmp, env with
  | some ps, some e => some (updateAssoc e "inferred_outputs" (.outputs ps))
  | _, e => e

/-- The templated self-reference expression written over the
`argo.step.owner` label in `run_job` (source lines 246–248); renders as
`'{\x7bpod.name\x7d}'`. -/
def owner_label_value : String := "'\x7b\x7bpod.name\x7d\x7d'"

/-- Python's `x if isinstance(x, list) else [x]` view of an argument:
scalar promotion to a single-element sequence. -/
def asList : Arg → List Arg
  | .list xs => xs
  | a => [a]

/-- The proxy carried by an argument, when the argument is a proxy. -/
def topProxy : Arg → Option Output
  | .proxy o => some o
  | _ => none

/-- The `args = args[0]` flattening of `run_container` (source lines
140–147): when the first element of `args` is itself a non-empty list
whose first element is an `Output` proxy, that inner list replaces
`args`. -/
def flattenListOfList : List Arg → List Arg
  | .list (x :: xs) :: rest =>
    match x with
    | .proxy o => .proxy o :: xs
    | _ => .list (x :: xs) :: rest
  | l => l

/-- The proxies found by scanning an argument list, including nested
one-level sequences (spec §4.3 step 2). -/
def argOutputsList : List Arg → List Output
  | [] => []
  | .proxy o :: rest => o :: argOutputsList rest
  | .list xs :: rest => xs.filterMap topProxy ++ argOutputsList rest
  | .val _ :: rest => argOutputsList rest

/-- The proxies found by scanning a step-defining call's `args` value. -/
def argOutputs : Option Arg → List Output
  | none => []
  | some a => argOutputsList (asList a)

/-- The artifact-kind or resource-kind proxy carried by an argument, used
by the `isinstance(arg, (OutputArtifact, OutputJob))` mirroring loop of
`run_container` (source lines 154–156). -/
def isArtifactProxy : Arg → Option Output
  | .proxy o => if o.kind == .artifact || o.kind == .job then some o else none
  | _ => none

/-- The implicit-argument rule of the step assembler (spec §4.3 step 3):
when `args` was not supplied and the staging area is non-empty, the
staged proxies are the argument list. -/
def effectiveArgs (args : Option Arg) (tmp : Option (List Output)) : Option Arg :=
  match args, tmp with
  | none, some (q :: qs) => some (.list ((q :: qs).map Arg.proxy))
  | a, _ => a

/-- The Step record assembled by `update_step` (spec §4.3 steps 1–2):
resolved name from the per-template counter, dependency edges and
required inputs inferred from the proxies among the arguments. -/
def mkStep (func_name : String) (args : Option Arg) (tmp : Option (List Output))
    (cnt : Nat) : Step :=
  let effArgs := effectiveArgs args tmp
  let proxies := argOutputs effArgs
  { step_name := ⟨func_name, cnt⟩
    template_name := func_name
    args := effArgs
    dependencies := proxies.filterMap (fun o => o.step)
    inputs := proxies.filter (fun o => o.kind == .artifact || o.kind == .job) }

/-- Modelled from the spec: `step_update_utils.update_step(func_name,
args, step_name, caller_line)` (spec §4.3) — resolve the step name by the
per-template monotonic counter, use the staged proxies as the implicit
argument list when `args` was not supplied and the staging area is
non-empty, infer dependency edges and required inputs from the proxies
among the arguments, append the step, clear the staging area (the staging
area only ever holds the immediately preceding call's outputs, spec §3),
and return the resolved step name.  `step_name` and `caller_line` are
part of the source signature; the explicit name already reaches this
function through `func_name`. -/
def update_step (func_name : String) (args : Option Arg)
    (step_name : Option String) (caller_line : Nat) (st : WorkflowState) :
    StepName × WorkflowState :=
  (⟨func_name, st.counters func_name⟩,
    { st with
        steps := st.steps ++ [mkStep func_name args st.outputs_tmp (st.counters func_name)]
        counters := fun x =>
          if x = func_name then st.counters func_name + 1 else st.counters x
        outputs_tmp := none })

/-- The parameters of `run_script` (source lines 28–41); `site` stands for
the `pyfunc.invocation_location()` of the call. -/
structure ScriptParams where
  image : String
  command : Option String := none
  source : Option String := none
  env : Option (List (String × String)) := none
  resources : Option String := none
  secret : Option String := none
  timeout : Option Nat := none
  retry : Option Nat := none
  step_name : Option String := none
  image_pull_policy : Option String := none
  pool : Option String := none
  daemon : Bool := false
  site : CallSite

/-- The common tail of `run_script` (source lines 73–78): assemble the
step, construct the script output proxy, and store it keyed by the
resolved step name. -/
def script_finish (p : ScriptParams) (st : WorkflowState) (func_name : String) :
    Except String (List Output) × WorkflowState :=
  let r := update_step func_name none p.step_name p.site.caller_line st
  let rets := script_output r.1.render func_name
  (.ok rets,
    { r.2 with steps_outputs := fun k =>
        if k = some r.1.render then some rets else r.2.steps_outputs k })

/-- The `Script` template constructed by `run_script`'s registration
branch (source lines 57–70). -/
def scriptFreshTemplate (p : ScriptParams) (st : WorkflowState) (src : String) :
    Script :=
  { name := resolved_name p.step_name p.site, image := p.image,
    command := p.command, source := src, env := p.env,
    secret := get_secret st p.secret, resources := p.resources,
    timeout := p.timeout, retry := p.retry,
    image_pull_policy := p.image_pull_policy, pool := p.pool,
    daemon := p.daemon }

/-- `run_script` (source lines 28–78). -/
def run_script (p : ScriptParams) (st : WorkflowState) :
    Except String (List Output) × WorkflowState :=
  let func_name := resolved_name p.step_name p.site
  match getTemplate st func_name with
  | none =>
    match p.source with
    | none => (.error "Input script can not be null", st)
    | some src =>
      script_finish p
        (add_template st (Template.script (scriptFreshTemplate p st src)))
        func_name
  | some _ => script_finish p st func_name

/-- The parameters of `run_container` (source lines 81–97). -/
structure ContainerParams where
  image : String
  command : Option String := none
  args : Option Arg := none
  output : Option (List Output) := none
  input : Option (List Output) := none
  env : Option (List (String × String)) := none
  secret : Option String := none
  resources : Option String := none
  timeout : Option Nat := none
  retry : Option Nat := none
  step_name : Option String := none
  image_pull_policy : Option String := none
  pool : Option String := none
  enable_ulogfs : Bool := true
  daemon : Bool := false
  volume_mounts : Option (List String) := none
  site : CallSite

/-- The argument normalization of `run_container`'s registration branch
(source lines 131–150): promote a missing `args` to the empty list when
the staging area is set, promote a scalar to a single-element sequence,
flatten a sequence-of-one-sequence headed by a proxy, and extend with the
staged proxies. -/
def containerNormArgs (args : Option Arg) (tmp : Option (List Output)) :
    Option (List Arg) :=
  let args1 : Option Arg :=
    match args, tmp with
    | none, some _ => some (.list [])
    | a, _ => a
  args1.map fun a =>
    let l := flattenListOfList (asList a)
    match tmp with
    | some ps => l ++ ps.map Arg.proxy
    | none => l

/-- The `Container` template constructed by `run_container`'s
registration branch (source lines 158–176): normalized arguments, and the
caller's input list extended with the artifact/resource proxies mirrored
out of the arguments (source lines 152–156). -/
def containerFreshTemplate (p : ContainerParams) (st : WorkflowState) :
    Container :=
  let argsN := containerNormArgs p.args st.outputs_tmp
  { name := resolved_name p.step_name p.site, image := p.image,
    command := p.command, args := argsN, env := p.env,
    secret := get_secret st p.secret, resources := p.resources,
    image_pull_policy := p.image_pull_policy, retry := p.retry,
    timeout := p.timeout, output := p.output,
    input := p.input.getD [] ++ (argsN.getD []).filterMap isArtifactProxy,
    pool := p.pool, enable_ulogfs := p.enable_ulogfs,
    daemon := p.daemon, volume_mounts := p.volume_mounts }

/-- `run_container` (source lines 81–190). -/
def run_container (p : ContainerParams) (st : WorkflowState) :
    Except String (List Output) × WorkflowState :=
  let func_name := resolved_name p.step_name p.site
  let branch : WorkflowState × Option Arg :=
    match getTemplate st func_name with
    | some _ => (st, p.args)
    | none =>
      (add_template st (Template.container (containerFreshTemplate p st)),
       (containerNormArgs p.args st.outputs_tmp).map Arg.list)
  let r := update_step func_name branch.2 p.step_name p.site.caller_line branch.1
  let outp := (getTemplate r.2 func_name).bind Template.outputs
  let rets := container_output (some r.1.render) func_name outp
  (.ok rets,
    { r.2 with steps_outputs := fun k =>
        if k = some r.1.render then some rets else r.2.steps_outputs k })

/-- The parameters of `run_job` (source lines 193–203). -/
structure JobParams where
  manifest : Option Manifest := none
  success_condition : String
  failure_condition : String
  timeout : Option Nat := none
  retry : Option Nat := none
  step_name : Option String := none
  pool : Option String := none
  env : Option (List (String × EnvVal)) := none
  set_owner_reference : Bool := true
  site : CallSite

/-- The manifest patching of `run_job`'s registration branch (source lines
236–250): when an environment mapping is supplied, overwrite the
manifest's `spec.env` section with the generated entries and, when the
metadata labels contain `argo.step.owner`, rewrite that label to the
templated self-reference expression. -/
def patchManifest (m0 : Manifest) (env : Option (List (String × EnvVal)))
    (envs : List (String × EnvVal)) : Manifest :=
  match env with
  | none => m0
  | some _ =>
    let m := { m0 with spec_env := envs }
    match m.metadata_labels with
    | some labels =>
      if labels.any (fun kv => kv.1 == "argo.step.owner") then
        let labels2 := labels.map (fun kv =>
          if kv.1 = "argo.step.owner" then (kv.1, owner_label_value) else kv)
        { m with metadata_labels := some labels2 }
      else m
    | none => m

/-- The `Job` template constructed by `run_job`'s registration branch
(source lines 228–264): the environment mapping extended with the staged
`inferred_outputs`, the generated step arguments, and the patched
manifest. -/
def jobFreshTemplate (p : JobParams) (st : WorkflowState) (m0 : Manifest) : Job :=
  let env1 := infer_env st.outputs_tmp p.env
  let g := generate_parameters_run_job env1
  { name := resolved_name p.step_name p.site, args := g.2.2,
    action := "create", manifest := patchManifest m0 env1 g.1,
    set_owner_reference := p.set_owner_reference,
    success_condition := p.success_condition,
    failure_condition := p.failure_condition,
    timeout := p.timeout, retry := p.retry, pool := p.pool }

/-- `run_job` (source lines 193–271).  Note that the source discards the
resolved step name returned by `update_step` (line 266) and keys the
stored outputs by the raw caller-supplied `step_name` (lines 269–270). -/
def run_job (p : JobParams) (st : WorkflowState) :
    Except String (List Output) × WorkflowState :=
  match p.manifest with
  | none => (.error "Input manifest can not be null", st)
  | some m0 =>
    let func_name := resolved_name p.step_name p.site
    let branch : List Arg × WorkflowState :=
      match getTemplate st func_name with
      | some _ => ([], st)
      | none =>
        ((generate_parameters_run_job (infer_env st.outputs_tmp p.env)).2.2,
         add_template st (Template.job (jobFreshTemplate p st m0)))
    let r := update_step func_name (some (.list branch.1)) p.step_name
      p.site.caller_line branch.2
    let rets := job_output p.step_name func_name
    (.ok rets,
      { r.2 with steps_outputs := fun k =>
          if k = p.step_name then some rets else r.2.steps_outputs k })

/-- One step-defining call together with its arguments: the three
step-defining functions of the source file under a common interface, used
to state properties quantified over "any step-defining call". -/
inductive StepCall
  | script (p : ScriptParams)
  | container (p : ContainerParams)
  | job (p : JobParams)

/-- Dispatch a step-defining call. -/
def runStepCall : StepCall → WorkflowState →
    Except String (List Output) × WorkflowState
  | .script p, st => run_script p st
  | .container p, st => run_container p st
  | .job p, st => run_job p st

/-- The template-registry key a step-defining call resolves to. -/
def callKey : StepCall → String
  | .script p => resolved_name p.step_name p.site
  | .container p => resolved_name p.step_name p.site
  | .job p => resolved_name p.step_name p.site

/-- The call-time validation of a step-defining call succeeds: the script
body is present for `run_script`, the manifest is present for `run_job`. -/
def callOk : StepCall → Prop
  | .script p => p.source ≠ none
  | .container _ => True
  | .job p => p.manifest ≠ none

/-- Iterate the same step-defining call `n` times from the same call
site. -/
def iterateCall (c : StepCall) : Nat → WorkflowState → WorkflowState
  | 0, st => st
  | n + 1, st => iterateCall c n (runStepCall c st).2

/-- Whether an `Except` result is the error case (a propagated Python
exception). -/
def isErr : Except String (List Output) → Bool
  | .error _ => true
  | .ok _ => false

/-- Python's `str.replace(c, r)` for a single-character pattern: replace
every occurrence of `c` by the character sequence `r`, in one left-to-right
pass. -/
def replaceChar (c : Char) (r : List Char) : List Char → List Char
  | [] => []
  | x :: xs => (if x = c then r else [x]) ++ replaceChar c r xs

/-- The backtick character. -/
def backquote : Char := Char.ofNat 96

/-- The dollar character. -/
def dollar : Char := Char.ofNat 36

/-- `escape_sql` (`couler/steps/sqlflow.py` lines 8–11): escape special
characters in SQL by the chained replacements
`.replace(backslash, backslash backslash)`, then
`.replace(quote, backslash quote)`, then
`.replace(backquote, backslash backquote)`, then
`.replace(dollar, backslash dollar)`. -/
def escape_sql (original_sql : String) : String :=
  String.mk
    (replaceChar dollar ['\\', dollar]
      (replaceChar backquote ['\\', backquote]
        (replaceChar '"' ['\\', '"']
          (replaceChar '\\' ['\\', '\\'] original_sql.data))))

/-- An initial, empty Workflow State (spec §3: initialized once before any
step-defining call executes). -/
def emptyState : WorkflowState :=
  { templates := []
    steps := []
    outputs_tmp := none
    steps_outputs := fun _ => none
    counters := fun _ => 0
    secrets := fun _ => none }

/-! Concrete fixtures used to instantiate the theorems below. -/

/-- A concrete artifact-kind output proxy. -/
def oA : Output := { kind := .artifact, step := some "s0", tmpl := "t0", field := "f" }

/-- A concrete parameter-kind output proxy. -/
def oB : Output := { kind := .parameter, step := some "s0", tmpl := "t0", field := "g" }

/-- A concrete script call with a missing source body. -/
def pS0 : ScriptParams := { image := "img", site := ⟨"run-script-1", 5⟩ }

/-- A concrete script call with a source body. -/
def pS1 : ScriptParams :=
  { image := "img", source := some "print(1)", site := ⟨"run-script-1", 5⟩ }

/-- A concrete container call with no arguments. -/
def pC0 : ContainerParams := { image := "img", site := ⟨"run-container-2", 20⟩ }

/-- A concrete job manifest with an `argo.step.owner` label. -/
def m2 : Manifest :=
  { spec_env := [("K", .str "V")]
    metadata_labels := some [("argo.step.owner", "someone"), ("team", "infra")]
    rest := "R" }

/-- A concrete job call with no manifest. -/
def pJ0 : JobParams :=
  { success_condition := "sc", failure_condition := "fc",
    site := ⟨"run-job-1", 10⟩ }

/-- A concrete job call with a manifest and no explicit step name. -/
def pJ1 : JobParams :=
  { manifest := some { spec_env := [], metadata_labels := none, rest := "R" },
    success_condition := "sc", failure_condition := "fc",
    site := ⟨"run-job-1", 10⟩ }

/-- A concrete job call with a manifest, an environment mapping and an
owner label. -/
def pJ2 : JobParams :=
  { manifest := some m2, env := some [("A", .str "1")],
    success_condition := "sc", failure_condition := "fc",
    site := ⟨"run-job-1", 10⟩ }

/-- A concrete registered container template. -/
def c0 : Container := { name := "run-container-2", image := "img" }

/-- A state in which `c0` is already registered. -/
def stW : WorkflowState := { emptyState with templates := [Template.container c0] }

end Couler

namespace Couler

/-! ## Helper lemmas -/

theorem replaceChar_eq_of_not_mem (c : Char) (r : List Char) :
    ∀ (l : List Char), c ∉ l → replaceChar c r l = l := by
  intro l
  induction l with
  | nil => intro _; rfl
  | cons x xs ih =>
    intro h
    have hx : ¬x = c := fun he => h (he ▸ List.mem_cons_self x xs)
    simp only [replaceChar, if_neg hx,
      ih (fun hc => h (List.mem_cons_of_mem _ hc))]
    rfl

/-! ## C10: `escape_sql` -/

/-- C10: for every input string `s`, `escape_sql s` equals `s` transformed
by the sequential replacements backslash ↦ backslash backslash, then
double quote ↦ backslash double-quote, then backtick ↦ backslash
backtick, then dollar ↦ backslash dollar; in particular a string
containing none of these four characters is returned unchanged. -/
theorem escape_sql_spec :
    (∀ s : String,
      escape_sql s = String.mk
        (replaceChar dollar ['\\', dollar]
          (replaceChar backquote ['\\', backquote]
            (replaceChar '"' ['\\', '"']
              (replaceChar '\\' ['\\', '\\'] s.data))))) ∧
    (∀ s : String,
      (∀ ch ∈ s.data, ch ≠ '\\' ∧ ch ≠ '"' ∧ ch ≠ backquote ∧ ch ≠ dollar) →
      escape_sql s = s) := by
  constructor
  · intro s; rfl
  · intro s h
    unfold escape_sql
    rw [replaceChar_eq_of_not_mem '\\' _ s.data (fun hm => ((h _ hm).1 rfl).elim),
      replaceChar_eq_of_not_mem '"' _ s.data (fun hm => ((h _ hm).2.1 rfl).elim),
      replaceChar_eq_of_not_mem backquote _ s.data (fun hm => ((h _ hm).2.2.1 rfl).elim),
      replaceChar_eq_of_not_mem dollar _ s.data (fun hm => ((h _ hm).2.2.2 rfl).elim)]

/-- Witness for C10 at `"SELECT 1"`, a string with none of the special
characters. -/
theorem escape_sql_spec_witness :
    (∀ ch ∈ ("SELECT 1" : String).data,
      ch ≠ '\\' ∧ ch ≠ '"' ∧ ch ≠ backquote ∧ ch ≠ dollar) ∧
    escape_sql "SELECT 1" = "SELECT 1" :=
  ⟨by decide, escape_sql_spec.2 "SELECT 1" (by decide)⟩

/-! ## C8: `run_job` with a missing manifest -/

/-- C8: `run_job` raises `MissingManifestError` (`ValueError` in the
source) whenever the manifest argument is absent, and the failure happens
before any mutation: the returned state is exactly the input state (no
template registered, no step appended). -/
theorem run_job_missing_manifest (p : JobParams) (st : WorkflowState)
    (h : p.manifest = none) :
    run_job p st = (.error "Input manifest can not be null", st) := by
  unfold run_job
  rw [h]

/-- Witness for C8: the concrete manifest-less job call on the empty
state. -/
theorem run_job_missing_manifest_witness :
    run_job pJ0 emptyState = (.error "Input manifest can not be null", emptyState) :=
  run_job_missing_manifest pJ0 emptyState rfl

/-! ## C4: `run_script` with a missing source -/

/-- C4: `run_script` raises `MissingSourceError` (`ValueError` in the
source) if and only if no source body is given and no template is yet
registered under the resolved name (reused templates do not re-validate
the source); on that failure the Workflow State is returned unchanged —
no template registered, no step appended. -/
theorem run_script_missing_source (p : ScriptParams) (st : WorkflowState) :
    (isErr (run_script p st).1 = true ↔
      (p.source = none ∧
        getTemplate st (resolved_name p.step_name p.site) = none)) ∧
    (isErr (run_script p st).1 = true → (run_script p st).2 = st) := by
  rcases hT : getTemplate st (resolved_name p.step_name p.site) with _ | t
  · rcases hs : p.source with _ | src
    · simp [run_script, hT, hs, isErr]
    · simp [run_script, hT, hs, isErr, script_finish]
  · simp [run_script, hT, isErr, script_finish]

/-- Witness for C4: the concrete source-less script call on the empty
state errors and leaves the state untouched. -/
theorem run_script_missing_source_witness :
    isErr (run_script pS0 emptyState).1 = true ∧
    (run_script pS0 emptyState).2 = emptyState :=
  ⟨(run_script_missing_source pS0 emptyState).1.mpr ⟨rfl, rfl⟩,
   (run_script_missing_source pS0 emptyState).2
     ((run_script_missing_source pS0 emptyState).1.mpr ⟨rfl, rfl⟩)⟩

/-! ## C2: argument flattening -/

/-- The one-level flattening normalizes `[[proxy_a, proxy_b]]` and
`[proxy_a, proxy_b]` to the same argument list, whatever the staging
area holds. -/
theorem containerNormArgs_flatten (a b : Output) (tmp : Option (List Output)) :
    containerNormArgs (some (.list [.list [.proxy a, .proxy b]])) tmp =
    containerNormArgs (some (.list [.proxy a, .proxy b])) tmp := by
  cases tmp <;> rfl

/-- C2: for every pair of output proxies, `run_container` called with
`args=[[proxy_a, proxy_b]]` produces exactly the same result — the same
constructed Template, the same appended Step, the same returned proxies —
as called with `args=[proxy_a, proxy_b]` (the one-level
sequence-of-one-sequence wrapping is flattened).  The hypothesis restricts
the statement to the invocation that constructs the Template, the only one
that normalizes arguments (see C9). -/
theorem run_container_flatten (a b : Output) (p : ContainerParams)
    (st : WorkflowState)
    (h : getTemplate st (resolved_name p.step_name p.site) = none) :
    run_container { p with args := some (.list [.list [.proxy a, .proxy b]]) } st =
    run_container { p with args := some (.list [.proxy a, .proxy b]) } st := by
  unfold run_container containerFreshTemplate
  simp only [h, containerNormArgs_flatten]

/-- Witness for C2: the two concrete calls agree on the empty state. -/
theorem run_container_flatten_witness :
    getTemplate emptyState (resolved_name pC0.step_name pC0.site) = none ∧
    run_container { pC0 with args := some (.list [.list [.proxy oA, .proxy oB]]) } emptyState =
    run_container { pC0 with args := some (.list [.proxy oA, .proxy oB]) } emptyState :=
  ⟨rfl, run_container_flatten oA oB pC0 emptyState rfl⟩

/-! ## Shared effect lemmas for `run_container` -/

theorem effectiveArgs_some (a : Arg) (tmp : Option (List Output)) :
    effectiveArgs (some a) tmp = some a := by
  cases tmp with
  | none => rfl
  | some l => cases l <;> rfl

/-- The registering invocation of `run_container`: one template appended
(the one built by `containerFreshTemplate`), one step appended (assembled
from the normalized arguments), staging area cleared. -/
theorem run_container_fresh_effect (p : ContainerParams) (st : WorkflowState)
    (h : getTemplate st (resolved_name p.step_name p.site) = none) :
    (run_container p st).2.templates
      = st.templates ++ [Template.container (containerFreshTemplate p st)] ∧
    (run_container p st).2.steps
      = st.steps ++ [mkStep (resolved_name p.step_name p.site)
          ((containerNormArgs p.args st.outputs_tmp).map Arg.list)
          st.outputs_tmp (st.counters (resolved_name p.step_name p.site))] ∧
    (run_container p st).2.outputs_tmp = none := by
  unfold run_container
  simp only [h]
  exact ⟨rfl, rfl, rfl⟩

/-! ## C5: pending outputs as implicit arguments -/

/-- C5: when `args` was not supplied and the staging area of pending
outputs is non-empty, the registering invocation of `run_container` uses
the staged proxies as the implicit argument list of both the constructed
Template and the appended Step, and the staging area is cleared
afterward. -/
theorem run_container_pending_outputs (p : ContainerParams) (st : WorkflowState)
    (q : Output) (qs : List Output)
    (h : getTemplate st (resolved_name p.step_name p.site) = none)
    (ha : p.args = none) (ht : st.outputs_tmp = some (q :: qs)) :
    ∃ c : Container, ∃ s : Step,
      (run_container p st).2.templates = st.templates ++ [Template.container c] ∧
      c.args = some ((q :: qs).map Arg.proxy) ∧
      (run_container p st).2.steps = st.steps ++ [s] ∧
      s.args = some (.list ((q :: qs).map Arg.proxy)) ∧
      (run_container p st).2.outputs_tmp = none := by
  obtain ⟨h1, h2, h3⟩ := run_container_fresh_effect p st h
  refine ⟨_, _, h1, ?_, h2, ?_, h3⟩
  · show (containerFreshTemplate p st).args = _
    simp [containerFreshTemplate, containerNormArgs, ha, ht, asList,
      flattenListOfList]
  · show (mkStep _ _ _ _).args = _
    simp [mkStep, containerNormArgs, ha, ht, asList, flattenListOfList,
      effectiveArgs_some]

/-- Witness for C5: a concrete argument-less container call with one
staged proxy. -/
theorem run_container_pending_outputs_witness :
    getTemplate { emptyState with outputs_tmp := some [oB] }
        (resolved_name pC0.step_name pC0.site) = none ∧
    pC0.args = none ∧
    { emptyState with outputs_tmp := some [oB] }.outputs_tmp = some [oB] ∧
    ∃ c : Container, ∃ s : Step,
      (run_container pC0 { emptyState with outputs_tmp := some [oB] }).2.templates
        = { emptyState with outputs_tmp := some [oB] }.templates
            ++ [Template.container c] ∧
      c.args = some ([oB].map Arg.proxy) ∧
      (run_container pC0 { emptyState with outputs_tmp := some [oB] }).2.steps
        = { emptyState with outputs_tmp := some [oB] }.steps ++ [s] ∧
      s.args = some (.list ([oB].map Arg.proxy)) ∧
      (run_container pC0 { emptyState with outputs_tmp := some [oB] }).2.outputs_tmp
        = none :=
  ⟨rfl, rfl, rfl,
   run_container_pending_outputs pC0 _ oB [] rfl rfl rfl⟩

/-! ## C3: artifact promotion into the input list -/

theorem mem_argOutputsList {o : Output} :
    ∀ {l : List Arg}, Arg.proxy o ∈ l → o ∈ argOutputsList l := by
  intro l
  induction l with
  | nil => intro hm; cases hm
  | cons x xs ih =>
    intro hm
    rcases List.mem_cons.mp hm with he | hm'
    · rw [← he]
      simp [argOutputsList]
    · cases x with
      | val s => simpa [argOutputsList] using ih hm'
      | proxy o' => simp [argOutputsList, ih hm']
      | list ys => simp [argOutputsList, ih hm']

/-- C3: every artifact-kind or resource-kind proxy among the normalized
arguments of the registering invocation of `run_container` appears in the
constructed Template's input list and in the appended Step's required
inputs — whatever the caller passed (or did not pass) as `input`. -/
theorem run_container_artifact_promotion (p : ContainerParams)
    (st : WorkflowState) (o : Output)
    (h : getTemplate st (resolved_name p.step_name p.site) = none)
    (hmem : Arg.proxy o ∈ (containerNormArgs p.args st.outputs_tmp).getD [])
    (hk : o.kind = .artifact ∨ o.kind = .job) :
    ∃ c : Container, ∃ s : Step,
      (run_container p st).2.templates = st.templates ++ [Template.container c] ∧
      o ∈ c.input ∧
      (run_container p st).2.steps = st.steps ++ [s] ∧
      o ∈ s.inputs := by
  obtain ⟨h1, h2, h3⟩ := run_container_fresh_effect p st h
  have hpred : (o.kind == OutputKind.artifact || o.kind == OutputKind.job) = true := by
    rcases hk with h' | h' <;> simp [h']
  refine ⟨_, _, h1, ?_, h2, ?_⟩
  · show o ∈ (containerFreshTemplate p st).input
    have hmf : o ∈ ((containerNormArgs p.args st.outputs_tmp).getD []).filterMap
        isArtifactProxy := by
      refine List.mem_filterMap.mpr ⟨Arg.proxy o, hmem, ?_⟩
      simp [isArtifactProxy, hpred]
    simp only [containerFreshTemplate]
    exact List.mem_append_right _ hmf
  · show o ∈ (mkStep _ _ _ _).inputs
    rcases hN : containerNormArgs p.args st.outputs_tmp with _ | l
    · rw [hN] at hmem
      cases hmem
    · rw [hN] at hmem
      simp only [Option.getD_some] at hmem
      simp only [mkStep, hN, Option.map_some', effectiveArgs_some, argOutputs,
        asList]
      exact List.mem_filter.mpr ⟨mem_argOutputsList hmem, hpred⟩

/-- Witness for C3: a concrete artifact proxy passed only via `args`. -/
theorem run_container_artifact_promotion_witness :
    getTemplate emptyState
        (resolved_name ({ pC0 with args := some (.list [.proxy oA]) } : ContainerParams).step_name
          ({ pC0 with args := some (.list [.proxy oA]) } : ContainerParams).site) = none ∧
    Arg.proxy oA ∈ (containerNormArgs
        ({ pC0 with args := some (.list [.proxy oA]) } : ContainerParams).args
        emptyState.outputs_tmp).getD [] ∧
    ({ pC0 with args := some (.list [.proxy oA]) } : ContainerParams).input = none ∧
    ∃ c : Container, ∃ s : Step,
      (run_container { pC0 with args := some (.list [.proxy oA]) } emptyState).2.templates
        = emptyState.templates ++ [Template.container c] ∧
      oA ∈ c.input ∧
      (run_container { pC0 with args := some (.list [.proxy oA]) } emptyState).2.steps
        = emptyState.steps ++ [s] ∧
      oA ∈ s.inputs :=
  ⟨rfl, by simp [containerNormArgs, pC0, emptyState, asList, flattenListOfList],
   rfl,
   run_container_artifact_promotion _ emptyState oA rfl
     (by simp [containerNormArgs, pC0, emptyState, asList, flattenListOfList])
     (Or.inl rfl)⟩

/-! ## C9: reuse invocations forward arguments unnormalized -/

/-- C9 (implicit): on every invocation of `run_container` whose template
is already registered, the caller's supplied `args` value is forwarded to
the step assembler exactly as given — no scalar promotion, no one-level
flattening, no pending-output extension and no artifact mirroring — and
the template registry is untouched. -/
theorem run_container_reuse_forwards_args (p : ContainerParams)
    (st : WorkflowState) (t : Template) (a : Arg)
    (hT : getTemplate st (resolved_name p.step_name p.site) = some t)
    (ha : p.args = some a) :
    (run_container p st).2.templates = st.templates ∧
    ∃ s : Step, (run_container p st).2.steps = st.steps ++ [s] ∧
      s.args = some a := by
  unfold run_container
  simp only [hT]
  refine ⟨rfl, _, rfl, ?_⟩
  show (mkStep _ p.args _ _).args = some a
  simp [mkStep, ha, effectiveArgs_some]

/-- Witness for C9: a reuse call whose nested-list argument — which the
registering branch would have flattened — reaches the appended step
unchanged. -/
theorem run_container_reuse_forwards_args_witness :
    getTemplate stW
        (resolved_name ({ pC0 with args := some (.list [.list [.proxy oA]]) } : ContainerParams).step_name
          ({ pC0 with args := some (.list [.list [.proxy oA]]) } : ContainerParams).site)
      = some (Template.container c0) ∧
    (run_container { pC0 with args := some (.list [.list [.proxy oA]]) } stW).2.templates
      = stW.templates ∧
    ∃ s : Step,
      (run_container { pC0 with args := some (.list [.list [.proxy oA]]) } stW).2.steps
        = stW.steps ++ [s] ∧
      s.args = some (.list [.list [.proxy oA]]) :=
  ⟨rfl,
   run_container_reuse_forwards_args _ stW (Template.container c0)
     (.list [.list [.proxy oA]]) rfl rfl⟩

/-! ## C7: `run_job` manifest patching -/

theorem map_ownerLabel_of_not_mem (labels : List (String × String)) (v : String)
    (h : labels.any (fun kv => kv.1 == "argo.step.owner") = false) :
    labels.map (fun kv =>
      if kv.1 = "argo.step.owner" then (kv.1, v) else kv) = labels := by
  induction labels with
  | nil => rfl
  | cons x xs ih =>
    simp only [List.any_cons, Bool.or_eq_false_iff, beq_eq_false_iff_ne,
      ne_eq] at h
    simp [if_neg h.1, ih h.2]

/-- The label patching of `patchManifest`, with and without the
`argo.step.owner` key present, is the pointwise rewrite of that single
key. -/
theorem patchManifest_env_some (m0 : Manifest) (e : List (String × EnvVal))
    (envs : List (String × EnvVal)) :
    patchManifest m0 (some e) envs =
      { m0 with
          spec_env := envs
          metadata_labels := m0.metadata_labels.map (fun labels =>
            labels.map (fun kv =>
              if kv.1 = "argo.step.owner" then (kv.1, owner_label_value) else kv)) } := by
  unfold patchManifest
  rcases hl : m0.metadata_labels with _ | labels
  · simp [hl]
  · rcases ha : labels.any (fun kv => kv.1 == "argo.step.owner") with _ | _
    · simp [hl, ha, map_ownerLabel_of_not_mem labels owner_label_value ha]
    · simp [hl, ha]

/-- C7: on the invocation of `run_job` that freshly registers its
template, the manifest reaches the Template unchanged when no environment
mapping is supplied; when one is supplied, exactly two things change —
the manifest's `spec.env` section becomes the generated environment
entries, and an `argo.step.owner` metadata label, when present, is
rewritten to the templated self-reference expression — while every other
manifest field (`rest`, and every other label) is unchanged. -/
theorem run_job_manifest_patch (p : JobParams) (st : WorkflowState)
    (m0 : Manifest) (hm : p.manifest = some m0)
    (hT : getTemplate st (resolved_name p.step_name p.site) = none) :
    ∃ j : Job,
      (run_job p st).2.templates = st.templates ++ [Template.job j] ∧
      (p.env = none → j.manifest = m0) ∧
      (∀ e, p.env = some e →
        j.manifest.rest = m0.rest ∧
        j.manifest.spec_env
          = (generate_parameters_run_job (infer_env st.outputs_tmp p.env)).1 ∧
        j.manifest.metadata_labels = m0.metadata_labels.map (fun labels =>
          labels.map (fun kv =>
            if kv.1 = "argo.step.owner" then (kv.1, owner_label_value) else kv))) := by
  refine ⟨jobFreshTemplate p st m0, ?_, ?_, ?_⟩
  · unfold run_job
    rw [hm]
    simp only [hT]
    rfl
  · intro he
    show (jobFreshTemplate p st m0).manifest = m0
    rcases htmp : st.outputs_tmp with _ | ps <;>
      simp [jobFreshTemplate, infer_env, he, htmp, patchManifest]
  · intro e he
    have h1 : ∃ e1, infer_env st.outputs_tmp p.env = some e1 := by
      rcases htmp : st.outputs_tmp with _ | ps <;>
        simp [infer_env, he, htmp]
    obtain ⟨e1, he1⟩ := h1
    show (jobFreshTemplate p st m0).manifest.rest = m0.rest ∧ _ ∧ _
    simp [jobFreshTemplate, he1, patchManifest_env_some]

/-- Witness for C7: the concrete job call `pJ2` (environment mapping
supplied, owner label present) on the empty state. -/
theorem run_job_manifest_patch_witness :
    pJ2.manifest = some m2 ∧
    getTemplate emptyState (resolved_name pJ2.step_name pJ2.site) = none ∧
    ∃ j : Job,
      (run_job pJ2 emptyState).2.templates
        = emptyState.templates ++ [Template.job j] ∧
      (pJ2.env = none → j.manifest = m2) ∧
      (∀ e, pJ2.env = some e →
        j.manifest.rest = m2.rest ∧
        j.manifest.spec_env
          = (generate_parameters_run_job (infer_env emptyState.outputs_tmp pJ2.env)).1 ∧
        j.manifest.metadata_labels = m2.metadata_labels.map (fun labels =>
          labels.map (fun kv =>
            if kv.1 = "argo.step.owner" then (kv.1, owner_label_value) else kv))) :=
  ⟨rfl, rfl, run_job_manifest_patch pJ2 emptyState m2 rfl rfl⟩

/-! ## C6: returned proxies and the step-outputs map -/

/-- Counterexample to C6 as stated: for the concrete job call `pJ1`
(no explicit `step_name`) on the empty state, the assembler resolves the
appended step's name to `run-job-1`, but the step-outputs map holds
nothing under that resolved name — the returned proxies were stored under
the raw caller-supplied `step_name`, i.e. under `none` — because
`run_job` discards the name returned by `update_step` (source line
266). -/
theorem run_job_output_key_counterexample :
    ((run_job pJ1 emptyState).2.steps.map Step.step_name
      = [⟨"run-job-1", 0⟩]) ∧
    (run_job pJ1 emptyState).2.steps_outputs
      (some (StepName.render ⟨"run-job-1", 0⟩)) = none ∧
    (run_job pJ1 emptyState).2.steps_outputs none
      = some (job_output none "run-job-1") := by
  refine ⟨rfl, ?_, ?_⟩ <;> rfl

/-- The result and storage effect of `script_finish`. -/
theorem script_finish_effect (p : ScriptParams) (st : WorkflowState)
    (fn : String) :
    (script_finish p st fn).1
      = .ok (script_output (StepName.render ⟨fn, st.counters fn⟩) fn) ∧
    (script_finish p st fn).2.steps
      = st.steps ++ [mkStep fn none st.outputs_tmp (st.counters fn)] ∧
    (script_finish p st fn).2.steps_outputs
        (some (StepName.render ⟨fn, st.counters fn⟩))
      = some (script_output (StepName.render ⟨fn, st.counters fn⟩) fn) := by
  refine ⟨rfl, rfl, ?_⟩
  simp [script_finish, update_step]

/-- C6 (amended): every step-defining call returns the output-proxy kind
matching its variant (script: parameter; container: as declared by the
template's outputs; job: external-resource) and stores the returned
proxies in the step-outputs map — `run_script` and `run_container` keyed
by the resolved step name of the step they appended, but `run_job` keyed
by the raw caller-supplied `step_name` argument, because it discards the
resolved name returned by the step assembler. -/
theorem step_outputs_storage :
    (∀ (p : ScriptParams) (st : WorkflowState) (r : List Output),
      (run_script p st).1 = .ok r →
      ∃ s : Step, (run_script p st).2.steps = st.steps ++ [s] ∧
        (run_script p st).2.steps_outputs (some s.step_name.render) = some r ∧
        ∀ o ∈ r, o.kind = .parameter) ∧
    (∀ (p : ContainerParams) (st : WorkflowState) (r : List Output),
      (run_container p st).1 = .ok r →
      ∃ s : Step, (run_container p st).2.steps = st.steps ++ [s] ∧
        (run_container p st).2.steps_outputs (some s.step_name.render) = some r) ∧
    (∀ (p : JobParams) (st : WorkflowState) (r : List Output),
      (run_job p st).1 = .ok r →
      (run_job p st).2.steps_outputs p.step_name = some r ∧
        ∀ o ∈ r, o.kind = .job) := by
  refine ⟨?_, ?_, ?_⟩
  · intro p st r hr
    rcases hT : getTemplate st (resolved_name p.step_name p.site) with _ | t
    · rcases hs : p.source with _ | src
      · rw [run_script] at hr
        simp only [hT, hs] at hr
        exact absurd hr (by simp)
      · rw [run_script] at hr ⊢
        simp only [hT, hs] at hr ⊢
        obtain ⟨h1, h2, h3⟩ := script_finish_effect p
          (add_template st (Template.script (scriptFreshTemplate p st src)))
          (resolved_name p.step_name p.site)
        rw [h1] at hr
        obtain rfl := (Except.ok.inj hr).symm
        exact ⟨_, h2, h3, fun o ho => by
          simp [script_output] at ho
          rw [ho]⟩
    · rw [run_script] at hr ⊢
      simp only [hT] at hr ⊢
      obtain ⟨h1, h2, h3⟩ := script_finish_effect p st
        (resolved_name p.step_name p.site)
      rw [h1] at hr
      obtain rfl := (Except.ok.inj hr).symm
      exact ⟨_, h2, h3, fun o ho => by
        simp [script_output] at ho
        rw [ho]⟩
  · intro p st r hr
    rcases hT : getTemplate st (resolved_name p.step_name p.site) with _ | t <;>
    · rw [run_container] at hr ⊢
      simp only [hT] at hr ⊢
      obtain rfl := (Except.ok.inj hr).symm
      refine ⟨_, rfl, ?_⟩
      simp [update_step, mkStep]
  · intro p st r hr
    rcases hm : p.manifest with _ | m0
    · rw [run_job] at hr
      simp only [hm] at hr
      exact absurd hr (by simp)
    · rw [run_job] at hr ⊢
      simp only [hm] at hr ⊢
      obtain rfl := (Except.ok.inj hr).symm
      refine ⟨by simp, fun o ho => ?_⟩
      simp [job_output] at ho
      rcases ho with ho | ho <;> rw [ho]

/-- Witness for C6 (amended): the three concrete calls `pS1`, `pC0` and
`pJ1` on the empty state. -/
theorem step_outputs_storage_witness :
    (∃ s : Step, (run_script pS1 emptyState).2.steps = emptyState.steps ++ [s] ∧
      (run_script pS1 emptyState).2.steps_outputs (some s.step_name.render)
        = some (script_output "run-script-1" "run-script-1") ∧
      ∀ o ∈ script_output "run-script-1" "run-script-1", o.kind = .parameter) ∧
    (∃ s : Step, (run_container pC0 emptyState).2.steps = emptyState.steps ++ [s] ∧
      (run_container pC0 emptyState).2.steps_outputs (some s.step_name.render)
        = some (container_output (some "run-container-2") "run-container-2" none)) ∧
    ((run_job pJ1 emptyState).2.steps_outputs pJ1.step_name
        = some (job_output none "run-job-1") ∧
      ∀ o ∈ job_output none "run-job-1", o.kind = .job) :=
  ⟨step_outputs_storage.1 pS1 emptyState _ rfl,
   step_outputs_storage.2.1 pC0 emptyState _ rfl,
   step_outputs_storage.2.2 pJ1 emptyState _ rfl⟩

/-! ## C1: idempotent template registration -/

/-- Effect of one step-defining call whose template is already
registered: registry untouched, one step appended under the current
counter, counter bumped. -/
theorem runStepCall_reuse (c : StepCall) (st : WorkflowState) (t : Template)
    (hOk : callOk c) (hT : getTemplate st (callKey c) = some t) :
    (runStepCall c st).2.templates = st.templates ∧
    (runStepCall c st).2.steps.map Step.step_name
      = st.steps.map Step.step_name ++ [⟨callKey c, st.counters (callKey c)⟩] ∧
    ∀ x, (runStepCall c st).2.counters x
      = if x = callKey c then st.counters (callKey c) + 1 else st.counters x := by
  cases c with
  | script p =>
    simp only [callKey] at hT ⊢
    simp only [runStepCall, run_script, hT, script_finish, update_step]
    exact ⟨by intros; trivial, by simp [mkStep], by intros; trivial⟩
  | container p =>
    simp only [callKey] at hT ⊢
    simp only [runStepCall, run_container, hT, update_step]
    exact ⟨by intros; trivial, by simp [mkStep], by intros; trivial⟩
  | job p =>
    simp only [callOk] at hOk
    rcases hm : p.manifest with _ | m0
    · exact absurd hm hOk
    simp only [callKey] at hT ⊢
    simp only [runStepCall, run_job, hm, hT, update_step]
    exact ⟨by intros; trivial, by simp [mkStep], by intros; trivial⟩

/-- Effect of the first step-defining call from a call site: exactly one
template appended under the resolved key, one step appended under the
current counter, counter bumped. -/
theorem runStepCall_fresh (c : StepCall) (st : WorkflowState)
    (hOk : callOk c) (hT : getTemplate st (callKey c) = none) :
    (∃ T : Template, T.name = callKey c ∧
      (runStepCall c st).2.templates = st.templates ++ [T]) ∧
    (runStepCall c st).2.steps.map Step.step_name
      = st.steps.map Step.step_name ++ [⟨callKey c, st.counters (callKey c)⟩] ∧
    ∀ x, (runStepCall c st).2.counters x
      = if x = callKey c then st.counters (callKey c) + 1 else st.counters x := by
  cases c with
  | script p =>
    simp only [callOk] at hOk
    rcases hs : p.source with _ | src
    · exact absurd hs hOk
    simp only [callKey] at hT ⊢
    simp only [runStepCall, run_script, hT, hs, script_finish, update_step]
    exact ⟨⟨Template.script (scriptFreshTemplate p st src), by intros; trivial,
      by intros; trivial⟩, by simp [mkStep, add_template], by intros; trivial⟩
  | container p =>
    simp only [callKey] at hT ⊢
    simp only [runStepCall, run_container, hT, update_step]
    exact ⟨⟨Template.container (containerFreshTemplate p st), by intros; trivial,
      by intros; trivial⟩, by simp [mkStep, add_template], by intros; trivial⟩
  | job p =>
    simp only [callOk] at hOk
    rcases hm : p.manifest with _ | m0
    · exact absurd hm hOk
    simp only [callKey] at hT ⊢
    simp only [runStepCall, run_job, hm, hT, update_step]
    exact ⟨⟨Template.job (jobFreshTemplate p st m0), by intros; trivial,
      by intros; trivial⟩, by simp [mkStep, add_template], by intros; trivial⟩

theorem cons_range_map (key : String) (c0 n : Nat) :
    (⟨key, c0⟩ : StepName)
        :: (List.range n).map (fun i => (⟨key, c0 + 1 + i⟩ : StepName))
      = (List.range (n + 1)).map (fun i => (⟨key, c0 + i⟩ : StepName)) := by
  rw [List.range_succ_eq_map]
  simp only [List.map_cons, List.map_map, Nat.add_zero]
  congr 1
  apply List.map_congr_left
  intro i _
  simp only [Function.comp_apply]
  congr 1
  omega

/-- Iterating a step-defining call over an already-registered template:
the registry never changes and the appended steps carry the consecutive
counter-indexed resolved names. -/
theorem iterateCall_reuse (c : StepCall) (hOk : callOk c) :
    ∀ (k : Nat) (st : WorkflowState) (t : Template),
      getTemplate st (callKey c) = some t →
      (iterateCall c k st).templates = st.templates ∧
      (iterateCall c k st).steps.map Step.step_name
        = st.steps.map Step.step_name
          ++ (List.range k).map
              (fun i => (⟨callKey c, st.counters (callKey c) + i⟩ : StepName)) := by
  intro k
  induction k with
  | zero => intro st t hT; exact ⟨rfl, by simp [iterateCall]⟩
  | succ n ih =>
    intro st t hT
    obtain ⟨e1, e2, e3⟩ := runStepCall_reuse c st t hOk hT
    have hT' : getTemplate (runStepCall c st).2 (callKey c) = some t := by
      unfold getTemplate at hT ⊢
      rw [e1]
      exact hT
    obtain ⟨i1, i2⟩ := ih (runStepCall c st).2 t hT'
    have hstep : iterateCall c (n + 1) st = iterateCall c n (runStepCall c st).2 :=
      rfl
    have hc : (runStepCall c st).2.counters (callKey c)
        = st.counters (callKey c) + 1 := by
      rw [e3]
      simp
    refine ⟨by rw [hstep, i1, e1], ?_⟩
    rw [hstep, i2, e2, hc, List.append_assoc, List.singleton_append,
      cons_range_map]

/-- C1: N invocations of the same step-defining call (`run_script`,
`run_container` or `run_job`) from the same call site with an unchanged
explicit name register exactly one Template (the first invocation
registers it, later invocations find it present and skip registration)
and append exactly N Steps carrying N pairwise-distinct resolved step
names. -/
theorem step_call_idempotent_registration (c : StepCall) (st : WorkflowState)
    (N : Nat) (hOk : callOk c) (hT : getTemplate st (callKey c) = none)
    (hN : 1 ≤ N) :
    (∃ T : Template, T.name = callKey c ∧
      (iterateCall c N st).templates = st.templates ++ [T]) ∧
    (iterateCall c N st).steps.length = st.steps.length + N ∧
    (((iterateCall c N st).steps.drop st.steps.length).map Step.step_name).Nodup := by
  obtain ⟨n, rfl⟩ : ∃ n, N = n + 1 := ⟨N - 1, by omega⟩
  obtain ⟨⟨T, hTn, hTreg⟩, f2, f3⟩ := runStepCall_fresh c st hOk hT
  have hT1 : getTemplate (runStepCall c st).2 (callKey c) = some T := by
    unfold getTemplate at hT ⊢
    rw [hTreg, List.find?_append, hT, Option.none_or]
    simp [List.find?, hTn]
  obtain ⟨i1, i2⟩ := iterateCall_reuse c hOk n (runStepCall c st).2 T hT1
  have hstep : iterateCall c (n + 1) st = iterateCall c n (runStepCall c st).2 :=
    rfl
  have hc1 : (runStepCall c st).2.counters (callKey c)
      = st.counters (callKey c) + 1 := by
    rw [f3]
    simp
  have hmap : (iterateCall c (n + 1) st).steps.map Step.step_name
      = st.steps.map Step.step_name
        ++ (List.range (n + 1)).map
            (fun i => (⟨callKey c, st.counters (callKey c) + i⟩ : StepName)) := by
    rw [hstep, i2, f2, hc1, List.append_assoc, List.singleton_append,
      cons_range_map]
  refine ⟨⟨T, hTn, by rw [hstep, i1, hTreg]⟩, ?_, ?_⟩
  · have hlen := congrArg List.length hmap
    simpa using hlen
  · have hdrop : ((iterateCall c (n + 1) st).steps.drop st.steps.length).map
        Step.step_name
        = (List.range (n + 1)).map
            (fun i => (⟨callKey c, st.counters (callKey c) + i⟩ : StepName)) := by
      rw [List.map_drop, hmap,
        show st.steps.length = (st.steps.map Step.step_name).length from
          (List.length_map _ _).symm,
        List.drop_left]
    rw [hdrop]
    refine (List.nodup_range (n + 1)).map ?_
    intro a b hab
    have hidx := congrArg StepName.idx hab
    simp only at hidx
    omega

/-- Witness for C1: three invocations of the concrete script call `pS1`
from the empty state. -/
theorem step_call_idempotent_registration_witness :
    callOk (.script pS1) ∧
    getTemplate emptyState (callKey (.script pS1)) = none ∧
    1 ≤ 3 ∧
    ((∃ T : Template, T.name = callKey (.script pS1) ∧
        (iterateCall (.script pS1) 3 emptyState).templates
          = emptyState.templates ++ [T]) ∧
      (iterateCall (.script pS1) 3 emptyState).steps.length
        = emptyState.steps.length + 3 ∧
      (((iterateCall (.script pS1) 3 emptyState).steps.drop
          emptyState.steps.length).map Step.step_name).Nodup) :=
  ⟨by simp [callOk, pS1], rfl, by omega,
   step_call_idempotent_registration (.script pS1) emptyState 3
     (by simp [callOk, pS1]) rfl (by omega)⟩

end Couler
